import Mathlib

/-!
Verification development for the task-logging Telegram bot
(`ai_assistant_bot.py`, `ai_parser.py`, `database.py`).

The bot's persistent state is a table of `Task` rows (SQLAlchemy model in
`database.py`); the operations verified here are the completion / creation /
update loops of `AIAssistantBot._process_text`, the reminder scheduling in
`_schedule_reminder`, the reminder fire path `send_reminder`, the pending-task
sort used in `show_tasks` and `AITaskParser.manage_tasks`, and the periodic
wellness sweep `cleanup_expired_wellness_tasks`.

Modelling conventions:
* instants (`datetime`) are integers (seconds); `datetime.now()` becomes an
  explicit `now : Int` argument; `timedelta(minutes=15)` is `900`;
* the database is a `List Bot.Task`; `query(...).first()` is `List.find?`, and
  the in-place mutation of the returned ORM row is `updateFirst` (replace the
  first row matching the same filter);
* `dateutil.parser.parse` is external; it is passed in as
  `parseDate : String → Option Int`, `none` standing for a raised parse error;
* the Telegram send call is external; its outcome is passed in as a `Bool`
  (`false` standing for a raised delivery exception);
* Python string membership `kw in title.lower()` is substring containment on
  the lowered character list.
-/

namespace Bot

/-- The `Task` ORM model of `database.py` (the fields the core reads/writes;
`description`, `estimated_duration`, `created_at`, `updated_at` are
bookkeeping never consulted by any of the verified operations). -/
structure Task where
  id : Nat
  user_id : Nat
  title : String
  due_date : Option Int
  priority : String
  status : String
  reminder_at : Option Int
  reminder_sent : Bool
deriving Repr, DecidableEq

/-- The row filter `Task.id == task_id, Task.user_id == user_id`. -/
def taskMatch (uid tid : Nat) (t : Task) : Bool :=
  t.id == tid && t.user_id == uid

/-- Mutation of the ORM row returned by `.first()`: replace the first row
matching the filter, leave everything else untouched. -/
def updateFirst (p : Task → Bool) (f : Task → Task) : List Task → List Task
  | [] => []
  | t :: ts => if p t then f t :: ts else t :: updateFirst p f ts

/-! ## Pending-task sort (`show_tasks` line 371, `manage_tasks` line 29)

`pending_tasks.sort(key=lambda t: (t.due_date is None, t.due_date,
\x7b'urgent': 0, 'high': 1, 'medium': 2, 'low': 3\x7d.get(t.priority, 4)))` -/

/-- `\x7b'urgent': 0, 'high': 1, 'medium': 2, 'low': 3\x7d.get(p, 4)`. -/
def prioRank (p : String) : Nat :=
  if p == "urgent" then 0
  else if p == "high" then 1
  else if p == "medium" then 2
  else if p == "low" then 3
  else 4

/-- The Python sort key `(t.due_date is None, t.due_date, rank)`.  When both
`due_date`s are `None`, Python's tuple comparison moves past the equal `None`s
to the rank; mapping `None` to a fixed `0` in the second slot reproduces
exactly that behaviour. -/
def sortKey (t : Task) : Nat × Int × Nat :=
  (if t.due_date.isNone then 1 else 0, t.due_date.getD 0, prioRank t.priority)

/-- Lexicographic comparison of sort keys (Python tuple `<=`). -/
def keyLE (a b : Nat × Int × Nat) : Prop :=
  a.1 < b.1 ∨ (a.1 = b.1 ∧ (a.2.1 < b.2.1 ∨ (a.2.1 = b.2.1 ∧ a.2.2 ≤ b.2.2)))

instance : DecidableRel keyLE := fun a b => by
  unfold keyLE; infer_instance

/-- Task ordering used by `list.sort`. -/
def taskLE (a b : Task) : Prop := keyLE (sortKey a) (sortKey b)

instance : DecidableRel taskLE := fun a b => by
  unfold taskLE; infer_instance

/-- `pending_tasks.sort(key=...)` — a stable sort by `sortKey`
(Python's sort is stable; so is insertion sort). -/
def sortTasks (l : List Task) : List Task := List.insertionSort taskLE l

/-- `db.query(Task).filter(Task.user_id == user_id, Task.status ==
'pending').all()` followed by the sort (`show_tasks` lines 370-371). -/
def list_pending (uid : Nat) (db : List Task) : List Task :=
  sortTasks (db.filter fun t => t.user_id == uid && t.status == "pending")

/-! ## Completion batch (`_process_text` lines 127-141) -/

/-- One iteration of the completion loop: look the id up scoped to the user;
if found, set `status = 'completed'` on that row and record its title. -/
def complete_step (uid : Nat) (acc : List Task × List String) (tid : Nat) :
    List Task × List String :=
  match acc.1.find? (taskMatch uid tid) with
  | none => acc
  | some t =>
      (updateFirst (taskMatch uid tid) (fun u => { u with status := "completed" }) acc.1,
       acc.2 ++ [t.title])

/-- The completion loop over `result['completions']`: returns the mutated
database and the `completed_tasks` title list. -/
def process_completions (uid : Nat) (ids : List Nat) (db : List Task) :
    List Task × List String :=
  ids.foldl (complete_step uid) (db, [])

/-! ## Creation batch (`_process_text` lines 143-177) -/

/-- One creation request as produced by the parser JSON. -/
structure Creation where
  title : String
  due_date : Option String
  reminder_at : Option String
  priority : Option String
deriving Repr, DecidableEq

/-- Python truthiness of `creation.get('due_date')`: absent key or empty
string are both falsy. -/
def truthy : Option String → Option String
  | none => none
  | some s => if s.isEmpty then none else some s

/-- `date_parser.parse` guarded by truthiness; the outer `none` is the raised
exception that aborts the item. -/
def parseField (parseDate : String → Option Int) : Option String → Option (Option Int)
  | none => some none
  | some s =>
      match parseDate s with
      | some d => some (some d)
      | none => none

/-- The `try` body of one creation item: parse the dates (an unparseable date
raises, and the `except` clause skips the item), then build the new `Task`
with `priority = creation.get('priority', 'medium')` and `status='pending'`.
`nid` is the id the store assigns at `db.flush()`. -/
def try_create (parseDate : String → Option Int) (uid nid : Nat) (c : Creation) :
    Option Task := do
  let due ← parseField parseDate (truthy c.due_date)
  let rem ← parseField parseDate (truthy c.reminder_at)
  pure { id := nid, user_id := uid, title := c.title, due_date := due,
         priority := c.priority.getD "medium", status := "pending",
         reminder_at := rem, reminder_sent := false }

/-! ## Reminder scheduling (`_schedule_reminder` lines 409-422) -/

/-- `if task.reminder_at and task.reminder_at > datetime.now() and not
task.reminder_sent`. Note: `status` is NOT consulted. -/
def schedule_cond (now : Int) (t : Task) : Bool :=
  match t.reminder_at with
  | none => false
  | some r => decide (now < r) && !t.reminder_sent

/-- `_schedule_reminder`: the scheduler's job table, modelled as the list of
task ids owning a live timer. On the then-branch, `add_job(...,
replace_existing=True)` replaces any previous job with the same id; on the
else-branch nothing is cancelled. -/
def schedule_reminder (now : Int) (t : Task) (jobs : List Nat) : List Nat :=
  if schedule_cond now t then jobs.filter (fun j => j != t.id) ++ [t.id]
  else jobs

/-- The creation loop over `result['creations']`, threading the database, the
scheduler job table and the next store-assigned id. A failed item is logged
and skipped (`continue`); a created task is handed to `_schedule_reminder`
iff its `reminder_at` is truthy. -/
def process_creations (parseDate : String → Option Int) (now : Int) (uid : Nat)
    (items : List Creation) (db : List Task) (jobs : List Nat) (nid : Nat) :
    List Task × List Nat × Nat :=
  items.foldl
    (fun acc c =>
      match try_create parseDate uid acc.2.2 c with
      | none => acc
      | some t =>
          (acc.1 ++ [t],
           (if t.reminder_at.isSome then schedule_reminder now t acc.2.1 else acc.2.1),
           acc.2.2 + 1))
    (db, jobs, nid)

/-! ## Update batch (`_process_text` lines 179-200) -/

/-- One update request `(id, fields_to_update)`. Field values arrive as JSON
strings. -/
structure UpdateReq where
  id : Nat
  fields : List (String × String)
deriving Repr, DecidableEq

/-- The attribute names of the `Task` model that the typed embedding carries
(`hasattr(task, field)`); a field outside this list is skipped by the
`hasattr` guard. Assignments of raw strings to the non-string columns `id`,
`user_id`, `reminder_sent`, and of an empty (falsy) string to a date column,
are type-confused states the ORM would reject at flush; no claim exercises
them and the typed model leaves the row unchanged there. -/
def taskFields : List String :=
  ["title", "due_date", "priority", "status", "reminder_at"]

/-- The body of the field loop: date fields with a truthy value are parsed
(`except: continue` skips just that field on failure); every other known
field is `setattr`ed verbatim. -/
def apply_field (parseDate : String → Option Int) (t : Task) (f v : String) : Task :=
  if taskFields.contains f then
    if (f == "due_date" || f == "reminder_at") && !v.isEmpty then
      match parseDate v with
      | some d =>
          if f == "due_date" then { t with due_date := some d }
          else { t with reminder_at := some d }
      | none => t
    else
      if f == "title" then { t with title := v }
      else if f == "priority" then { t with priority := v }
      else if f == "status" then { t with status := v }
      else t
  else t

/-- One update request: look the row up scoped to the user; if found, apply
the field loop to that row; a missing id is skipped. -/
def apply_update (parseDate : String → Option Int) (uid : Nat) (r : UpdateReq)
    (db : List Task) : List Task :=
  match db.find? (taskMatch uid r.id) with
  | none => db
  | some _ =>
      updateFirst (taskMatch uid r.id)
        (fun t => r.fields.foldl (fun t fv => apply_field parseDate t fv.1 fv.2) t) db

/-- The update loop over `result['updates']`. -/
def process_updates (parseDate : String → Option Int) (uid : Nat)
    (reqs : List UpdateReq) (db : List Task) : List Task :=
  reqs.foldl (fun db r => apply_update parseDate uid r db) db

/-! ## Reminder fire path (`send_reminder` lines 424-443) -/

/-- `send_reminder(user_id, task_id)`: re-fetch the task; if it exists and is
pending, attempt the Telegram send (`deliverOk = false` models a raised
delivery exception, which skips straight to the logging `except` clause);
only after a successful send is `reminder_sent` set and committed. Returns
the database and whether a notification was delivered. Note: the guard
checks `status == 'pending'` only — `reminder_sent` is NOT consulted. -/
def send_reminder (deliverOk : Bool) (uid tid : Nat) (db : List Task) :
    List Task × Bool :=
  match db.find? (taskMatch uid tid) with
  | none => (db, false)
  | some t =>
      if t.status == "pending" then
        if deliverOk then
          (updateFirst (taskMatch uid tid) (fun u => { u with reminder_sent := true }) db,
           true)
        else (db, false)
      else (db, false)

/-! ## Wellness sweep (`cleanup_expired_wellness_tasks` lines 445-480) -/

def wellness_keywords : List String :=
  ["break", "water", "exercise", "walk", "stretch", "rest", "breathe", "drink", "hydrate"]

/-- `title.lower()` as a character list (the keywords are ASCII). -/
def lowerChars (s : String) : List Char := s.toList.map Char.toLower

/-- Python substring membership `needle in hay`. -/
def containsSub (hay needle : List Char) : Bool :=
  hay.tails.any (fun suf => needle.isPrefixOf suf)

/-- `any(keyword in task.title.lower() for keyword in wellness_keywords)`. -/
def titleHasKeyword (t : Task) : Bool :=
  wellness_keywords.any (fun k => containsSub (lowerChars t.title) k.toList)

/-- `'break' in task.title.lower()`. -/
def titleHasBreak (t : Task) : Bool :=
  containsSub (lowerChars t.title) "break".toList

/-- The SQL filter `Task.status == 'pending', Task.due_date < now` (a NULL
`due_date` never satisfies `<`), composed with the per-task body of the
sweep loop: break tasks complete immediately once overdue; other wellness
tasks need `due_date < now - timedelta(minutes=15)` and `priority == 'low'`. -/
def sweep_task (now : Int) (t : Task) : Task :=
  if t.status == "pending" &&
     (match t.due_date with | some d => decide (d < now) | none => false) then
    if titleHasKeyword t then
      if titleHasBreak t then { t with status := "completed" }
      else if (match t.due_date with | some d => decide (d < now - 900) | none => false)
              && t.priority == "low" then
        { t with status := "completed" }
      else t
    else t
  else t

/-- One wellness sweep over the whole store. -/
def cleanup_expired_wellness_tasks (now : Int) (db : List Task) : List Task :=
  db.map (sweep_task now)

/-! ## Dispatcher (`_process_text` lines 126-207) -/

/-- The parsed action: each category is a list, Python-falsy when empty
(an absent key and an empty list behave identically). -/
structure ParsedAction where
  completions : List Nat
  creations : List Creation
  updates : List UpdateReq
deriving Repr, DecidableEq

/-- The user-visible outcome of one `_process_text` call:
`completedMsg` = commit + completion message, `createdMsg` / `updatedMsg` =
commit + task list, `silent` = a truthy category ran but nothing matched and
no later category was present (the code replies nothing), `fallback` = no
category ran (task list or help text, no mutation). -/
inductive Outcome
  | completedMsg (titles : List String)
  | createdMsg
  | updatedMsg
  | silent
  | fallback
deriving Repr, DecidableEq

/-- The category dispatch of `_process_text`: completions, then creations,
then updates, each guarded by truthiness; the completion branch `return`s
only when `completed_tasks` is non-empty, so a completion batch in which no
id matched FALLS THROUGH to the next category; creation and update branches
always `return`. -/
def process_text (parseDate : String → Option Int) (now : Int) (uid : Nat)
    (a : ParsedAction) (db : List Task) (jobs : List Nat) (nid : Nat) :
    List Task × List Nat × Outcome :=
  let step := process_completions uid a.completions db
  if !a.completions.isEmpty && !step.2.isEmpty then
    (step.1, jobs, Outcome.completedMsg step.2)
  else if !a.creations.isEmpty then
    let r := process_creations parseDate now uid a.creations step.1 jobs nid
    (r.1, r.2.1, Outcome.createdMsg)
  else if !a.updates.isEmpty then
    (process_updates parseDate uid a.updates step.1, jobs, Outcome.updatedMsg)
  else if !a.completions.isEmpty then (step.1, jobs, Outcome.silent)
  else (step.1, jobs, Outcome.fallback)

/-! ## Helper lemmas -/

theorem updateFirst_length (p : Task → Bool) (f : Task → Task) (l : List Task) :
    (updateFirst p f l).length = l.length := by
  induction l with
  | nil => rfl
  | cons a as ih =>
      unfold updateFirst
      by_cases h : p a = true
      · simp [h]
      · simp [h, ih]

theorem updateFirst_fix (p : Task → Bool) (f : Task → Task) (l : List Task)
    (t : Task) (hf : l.find? p = some t) (hfix : f t = t) :
    updateFirst p f l = l := by
  induction l with
  | nil => simp at hf
  | cons a as ih =>
      by_cases h : p a = true
      · rw [List.find?_cons_of_pos _ h] at hf
        injection hf with hf
        subst hf
        unfold updateFirst
        simp [h, hfix]
      · rw [List.find?_cons_of_neg _ h] at hf
        unfold updateFirst
        simp [h, ih hf]

/-! ## C2 — fire-path delivery guard -/

/-- A task that is still pending but whose reminder was already marked sent. -/
def tSentPending : Task :=
  { id := 1, user_id := 7, title := "Call mom", due_date := none,
    priority := "medium", status := "pending", reminder_at := some 50,
    reminder_sent := true }

/-- C2 counterexample: the claim says a notification is delivered only when
the re-fetched task has `reminder_sent = false`; but the fire path's guard
never consults `reminder_sent`, and here a pending task whose reminder was
already sent receives a (second) delivery. -/
theorem fire_guard_cex :
    tSentPending.status = "pending" ∧ tSentPending.reminder_sent = true ∧
    (send_reminder true 7 1 [tSentPending]).2 = true := by decide

/-- C2 (amended): on the fire path a notification is delivered iff the send
succeeds and the re-fetched task exists with status `pending`;
`reminder_sent` is not part of the guard. -/
theorem fire_guard_spec (ok : Bool) (uid tid : Nat) (db : List Task) :
    (send_reminder ok uid tid db).2 = true ↔
      ok = true ∧ ∃ t, db.find? (taskMatch uid tid) = some t ∧ t.status = "pending" := by
  unfold send_reminder
  cases hf : db.find? (taskMatch uid tid) with
  | none => simp
  | some t =>
      by_cases hs : t.status = "pending"
      · cases ok <;> simp [hs]
      · have : (t.status == "pending") = false := by
          simp [hs]
        simp [this]
        intro _ u
        exact hs u

/-- C3: when the notification send raises, the fire attempt leaves the store
untouched (in particular `reminder_sent` stays false) and nothing is
delivered; any change the fire path makes to the store happens only after a
successful delivery, and a reported delivery implies the send succeeded. -/
theorem fire_failure_spec (ok : Bool) (uid tid : Nat) (db : List Task) :
    (ok = false → send_reminder ok uid tid db = (db, false))
  ∧ ((send_reminder ok uid tid db).1 ≠ db → ok = true ∧ (send_reminder ok uid tid db).2 = true)
  ∧ ((send_reminder ok uid tid db).2 = true → ok = true) := by
  unfold send_reminder
  cases hf : db.find? (taskMatch uid tid) with
  | none => simp
  | some t =>
      by_cases hs : (t.status == "pending") = true
      · cases ok <;> simp [hs]
      · simp at hs
        have : (t.status == "pending") = false := by simp [hs]
        simp [this]

/-- C3 witness: a concrete failed delivery changes nothing. -/
theorem fire_failure_witness :
    send_reminder false 7 1 [tSentPending] = ([tSentPending], false) :=
  (fire_failure_spec false 7 1 [tSentPending]).1 rfl

/-! ## C5 — pending-task sort order -/

/-- The sort order exactly as the spec words it: primary key `due_at`
ascending with tasks lacking a due time sorted last; ties broken by the
priority rank. This definition follows the SPEC's words, to be compared
with `taskLE`, which follows the source's sort key. -/
def specLE (a b : Task) : Prop :=
  match a.due_date, b.due_date with
  | none, none => prioRank a.priority ≤ prioRank b.priority
  | none, some _ => False
  | some _, none => True
  | some x, some y => x < y ∨ (x = y ∧ prioRank a.priority ≤ prioRank b.priority)

theorem keyLE_trans (a b c : Nat × Int × Nat) (hab : keyLE a b) (hbc : keyLE b c) :
    keyLE a c := by
  unfold keyLE at *
  omega

theorem keyLE_total (a b : Nat × Int × Nat) : keyLE a b ∨ keyLE b a := by
  unfold keyLE
  omega

instance : IsTrans Task taskLE :=
  ⟨fun _ _ _ hab hbc => keyLE_trans _ _ _ hab hbc⟩

instance : IsTotal Task taskLE :=
  ⟨fun a b => keyLE_total (sortKey a) (sortKey b)⟩

/-- The source's sort key induces exactly the spec's ordering. -/
theorem taskLE_iff_specLE (a b : Task) : taskLE a b ↔ specLE a b := by
  unfold taskLE keyLE sortKey specLE
  cases hda : a.due_date with
  | none =>
      cases hdb : b.due_date with
      | none => simp
      | some y => simp
  | some x =>
      cases hdb : b.due_date with
      | none => simp
      | some y => simp

/-- C5: the pending-task listing returns exactly the user's pending tasks
(a permutation of the filtered store), sorted by the spec's order: `due_at`
ascending with missing due times last, ties broken by the priority rank
`urgent(0) < high(1) < medium(2) < low(3)`, and any other priority value
ranking after `low`. -/
theorem pending_sort_spec (uid : Nat) (db : List Task) :
    (list_pending uid db).Perm
      (db.filter fun t => t.user_id == uid && t.status == "pending")
  ∧ List.Sorted specLE (list_pending uid db)
  ∧ (prioRank "urgent" = 0 ∧ prioRank "high" = 1 ∧ prioRank "medium" = 2 ∧
     prioRank "low" = 3)
  ∧ (∀ p, p ≠ "urgent" → p ≠ "high" → p ≠ "medium" → p ≠ "low" → prioRank p = 4) := by
  refine ⟨List.perm_insertionSort taskLE _, ?_, by decide, ?_⟩
  · have h := List.sorted_insertionSort taskLE
      (db.filter fun t => t.user_id == uid && t.status == "pending")
    exact h.imp (fun hab => (taskLE_iff_specLE _ _).1 hab)
  · intro p h1 h2 h3 h4
    unfold prioRank
    simp [h1, h2, h3, h4]

/-- C5 witness at concrete inputs: an unknown priority ranks 4 (after low),
and a concrete listing is produced sorted. -/
theorem pending_sort_witness : prioRank "critical" = 4 :=
  (pending_sort_spec 0 []).2.2.2 "critical"
    (by decide) (by decide) (by decide) (by decide)

/-! ## C6 — wellness sweep selection rule -/

/-- The wellness keywords other than `break`. -/
def titleHasOtherKeyword (t : Task) : Bool :=
  ["water", "exercise", "walk", "stretch", "rest", "breathe", "drink", "hydrate"].any
    (fun k => containsSub (lowerChars t.title) k.toList)

theorem keyword_split (t : Task) :
    titleHasKeyword t = (titleHasBreak t || titleHasOtherKeyword t) := rfl

/-- The claim-level selection condition: a pending task with a past due date
and "break" in its title (no grace, any priority); or a pending task with
another wellness keyword, overdue by more than 15 minutes (900 s), and
priority `low`. -/
def sweepSelects (now : Int) (t : Task) : Bool :=
  t.status == "pending" &&
  (match t.due_date with
   | none => false
   | some d =>
       if titleHasBreak t then decide (d < now)
       else titleHasOtherKeyword t && decide (d < now - 900) && (t.priority == "low"))

/-- C6: on a wellness sweep, each task is completed exactly when the claim's
selection rule holds — `break` tasks immediately once overdue with no
priority guard, other wellness-keyword tasks only past a 15-minute grace
period and only at `low` priority — and every other task is untouched. -/
theorem wellness_sweep_spec (now : Int) (t : Task) :
    sweep_task now t =
      if sweepSelects now t then { t with status := "completed" } else t := by
  unfold sweep_task sweepSelects
  cases hd : t.due_date with
  | none => simp
  | some d =>
      by_cases hs : (t.status == "pending") = true
      · rw [keyword_split]
        by_cases hb : titleHasBreak t = true
        · by_cases hlt : d < now <;> simp [hs, hb, hlt]
        · have hb' : titleHasBreak t = false := by simp at hb; simp [hb]
          by_cases ho : titleHasOtherKeyword t = true
          · by_cases h1 : d < now
            · by_cases h2 : d < now - 900 <;>
                by_cases h3 : (t.priority == "low") = true <;>
                  simp [hs, hb', ho, h1, h2, h3]
            · have h2 : ¬ d < now - 900 := by omega
              simp [hs, hb', ho, h1, h2]
          · have ho' : titleHasOtherKeyword t = false := by simp at ho; simp [ho]
            by_cases h1 : d < now <;> simp [hs, hb', ho', h1]
      · have hs' : (t.status == "pending") = false := by simp at hs; simp [hs]
        simp [hs']

/-! ## C10 — sweep frame: only `status` changes, null due dates never selected -/

/-- A task with no due date, used as a concrete witness input. -/
def tNullDue : Task :=
  { id := 3, user_id := 7, title := "Take a break", due_date := none,
    priority := "low", status := "pending", reminder_at := none,
    reminder_sent := false }

/-- C10: the sweep is a per-task map; it never touches any field other than
`status`; a pending task with a null due date is never selected; and the only
status change it makes is pending → completed. -/
theorem sweep_frame_spec (now : Int) (t : Task) (db : List Task) :
    cleanup_expired_wellness_tasks now db = db.map (sweep_task now)
  ∧ (sweep_task now t).id = t.id
  ∧ (sweep_task now t).user_id = t.user_id
  ∧ (sweep_task now t).title = t.title
  ∧ (sweep_task now t).due_date = t.due_date
  ∧ (sweep_task now t).priority = t.priority
  ∧ (sweep_task now t).reminder_at = t.reminder_at
  ∧ (sweep_task now t).reminder_sent = t.reminder_sent
  ∧ (t.due_date = none → sweep_task now t = t)
  ∧ ((sweep_task now t).status ≠ t.status →
       t.status = "pending" ∧ (sweep_task now t).status = "completed") := by
  refine ⟨rfl, ?_⟩
  unfold sweep_task
  split
  · split
    · split
      · rename_i h1 _ _
        simp at h1
        simp [h1.1]
        intro hn
        rw [hn] at h1
        simp at h1
      · split
        · rename_i h1 _ _ _
          simp at h1
          simp [h1.1]
          intro hn
          rw [hn] at h1
          simp at h1
        · simp
    · simp
  · rename_i h1
    simp

/-- C10 witness: a concrete pending task with a null due date is untouched by
the sweep. -/
theorem sweep_frame_witness : sweep_task 1000 tNullDue = tNullDue :=
  ((sweep_frame_spec 1000 tNullDue []).2.2.2.2.2.2.2.2.1) rfl

/-! ## C1 — completion batch -/

theorem complete_step_none (uid tid : Nat) (dbts : List Task × List String)
    (hf : dbts.1.find? (taskMatch uid tid) = none) :
    complete_step uid dbts tid = dbts := by
  unfold complete_step
  rw [hf]

theorem complete_step_some (uid tid : Nat) (dbts : List Task × List String)
    (t : Task) (hf : dbts.1.find? (taskMatch uid tid) = some t) :
    complete_step uid dbts tid =
      (updateFirst (taskMatch uid tid)
        (fun u => { u with status := "completed" }) dbts.1,
       dbts.2 ++ [t.title]) := by
  unfold complete_step
  rw [hf]

/-- Accumulator lemma for the completion fold: the mutated store does not
depend on the already-collected titles, and titles only accumulate. -/
theorem completions_acc (uid : Nat) (ids : List Nat) (db : List Task)
    (ts : List String) :
    ids.foldl (complete_step uid) (db, ts) =
      ((ids.foldl (complete_step uid) (db, [])).1,
       ts ++ (ids.foldl (complete_step uid) (db, [])).2) := by
  induction ids generalizing db ts with
  | nil => simp
  | cons tid rest ih =>
      simp only [List.foldl_cons]
      cases hf : db.find? (taskMatch uid tid) with
      | none =>
          rw [complete_step_none uid tid (db, ts) hf,
              complete_step_none uid tid (db, []) hf]
          exact ih db ts
      | some t =>
          rw [complete_step_some uid tid (db, ts) t hf,
              complete_step_some uid tid (db, []) t hf]
          rw [ih _ (ts ++ [t.title]), ih _ ([] ++ [t.title])]
          simp

/-- An already-completed task, id 1. -/
def tDoneA : Task :=
  { id := 1, user_id := 7, title := "A", due_date := none, priority := "medium",
    status := "completed", reminder_at := none, reminder_sent := false }

/-- A pending task, id 2. -/
def tPendB : Task :=
  { id := 2, user_id := 7, title := "B", due_date := none, priority := "medium",
    status := "pending", reminder_at := none, reminder_sent := false }

/-- C1 counterexample: completing the batch [1, 2] where task 1 is already
completed does NOT short-circuit — the pending task 2 is completed in the
same batch, and task 1's title is reported in the ordinary completion list
("A" next to "B"), not as a distinct "already completed" signal. -/
theorem completion_batch_cex :
    tDoneA.status = "completed" ∧
    process_completions 7 [1, 2] [tDoneA, tPendB] =
      ([tDoneA, { tPendB with status := "completed" }], ["A", "B"]) := by decide

/-- C1 (amended): a completion request whose id is missing (or owned by
another user) is silently skipped — no title reported, no change; a request
whose task is already completed does NOT short-circuit the batch: the row is
re-assigned `completed` (leaving it unchanged), its title is reported in the
same list as any other completion, and the remaining requests in the batch
are still processed. -/
theorem completion_batch_spec (uid tid : Nat) (rest : List Nat) (db : List Task) :
    (db.find? (taskMatch uid tid) = none →
       process_completions uid (tid :: rest) db = process_completions uid rest db)
  ∧ (∀ t, db.find? (taskMatch uid tid) = some t → t.status = "completed" →
       process_completions uid (tid :: rest) db =
         ((process_completions uid rest db).1,
          t.title :: (process_completions uid rest db).2)) := by
  constructor
  · intro hf
    unfold process_completions
    simp only [List.foldl_cons]
    rw [complete_step_none uid tid (db, []) hf]
  · intro t hf hc
    have hfix : (fun u => ({ u with status := "completed" } : Task)) t = t := by
      cases t
      simp_all
    have hupd : updateFirst (taskMatch uid tid)
        (fun u => { u with status := "completed" }) db = db :=
      updateFirst_fix _ _ _ t hf hfix
    unfold process_completions
    simp only [List.foldl_cons]
    rw [complete_step_some uid tid (db, []) t hf, hupd]
    simp only [List.nil_append]
    rw [completions_acc uid rest db [t.title]]
    simp

/-- C1 witness: a batch consisting of one already-completed task leaves the
store unchanged and reports that task's title in the ordinary list. -/
theorem completion_batch_witness :
    process_completions 7 [1] [tDoneA, tPendB] = ([tDoneA, tPendB], ["A"]) :=
  (completion_batch_spec 7 1 [] [tDoneA, tPendB]).2 tDoneA rfl rfl

/-! ## C4 — reminder-timer invariant -/

/-- A completed task with a future, unsent reminder. -/
def tDoneTimer : Task :=
  { id := 4, user_id := 7, title := "Ship report", due_date := some 50,
    priority := "high", status := "completed", reminder_at := some 100,
    reminder_sent := false }

/-- A pending task with a future, unsent reminder (timer id 1 live). -/
def tPendTimer : Task :=
  { id := 1, user_id := 7, title := "Call mom", due_date := some 90,
    priority := "medium", status := "pending", reminder_at := some 100,
    reminder_sent := false }

/-- C4 counterexample: (a) the scheduling operation arms a timer for a task
whose status is `completed`, so "timer exists iff status = pending AND ..."
fails; (b) completing a task with a live timer leaves the timer in place
(the completion path never reconciles the job table), so the invariant also
fails after a status mutation. -/
theorem reminder_invariant_cex :
    (tDoneTimer.status = "completed" ∧
     tDoneTimer.id ∈ schedule_reminder 0 tDoneTimer [])
  ∧ ((process_text (fun _ => none) 0 7 ⟨[1], [], []⟩ [tPendTimer] [1] 9).2.1 = [1] ∧
     (process_text (fun _ => none) 0 7 ⟨[1], [], []⟩ [tPendTimer] [1] 9).1 =
       [{ tPendTimer with status := "completed" }]) := by decide

/-- C4 (amended): `_schedule_reminder` arms a timer for a task exactly when
`reminder_at` is set, in the future, and `reminder_sent` is false — the
task's `status` is not consulted; repeated calls with unchanged task state
are idempotent (`replace_existing`); when the arming condition fails nothing
is cancelled (a stale timer stays); and the completion path never touches
the scheduler's job table. -/
theorem reminder_schedule_spec (now : Int) (t : Task) (jobs : List Nat) :
    (t.id ∈ schedule_reminder now t jobs ↔ schedule_cond now t = true ∨ t.id ∈ jobs)
  ∧ (schedule_cond now t = true ↔
       ∃ r, t.reminder_at = some r ∧ now < r ∧ t.reminder_sent = false)
  ∧ schedule_reminder now t (schedule_reminder now t jobs) = schedule_reminder now t jobs
  ∧ (schedule_cond now t = false → schedule_reminder now t jobs = jobs)
  ∧ (∀ pd uid ids db nid,
       (process_text pd now uid ⟨ids, [], []⟩ db jobs nid).2.1 = jobs) := by
  refine ⟨?_, ?_, ?_, ?_, ?_⟩
  · unfold schedule_reminder
    by_cases hc : schedule_cond now t = true
    · simp [hc]
    · simp [hc]
  · unfold schedule_cond
    cases hr : t.reminder_at with
    | none => simp
    | some r => simp
  · unfold schedule_reminder
    by_cases hc : schedule_cond now t = true
    · simp [hc, List.filter_append, List.filter_filter]
    · simp [hc]
  · intro hc
    unfold schedule_reminder
    simp [hc]
  · intro pd uid ids db nid
    unfold process_text
    by_cases h1 : ids.isEmpty = true <;>
      by_cases h2 : (process_completions uid ids db).2.isEmpty = true <;>
        simp [h1, h2]

/-- C4 witness: a task with no reminder arms nothing and cancels nothing. -/
theorem reminder_schedule_witness : schedule_reminder 0 tDoneA [5] = [5] :=
  (reminder_schedule_spec 0 tDoneA [5]).2.2.2.1 rfl

/-! ## C7 — creation batch error handling -/

/-- A creation request with an unparseable due date. -/
def cFailA : Creation :=
  { title := "A", due_date := some "garbage", reminder_at := none, priority := none }

/-- A well-formed creation request. -/
def cOkB : Creation :=
  { title := "B", due_date := none, reminder_at := none, priority := none }

/-- C7 counterexample: an unparseable `due_date` does NOT produce a
reminder-less task — the whole item is skipped (the `except` clause catches
the parse error and `continue`s), so no task titled "A" is persisted, while
the rest of the batch is still processed ("B" is created). -/
theorem creation_batch_cex :
    (process_creations (fun _ => none) 0 7 [cFailA, cOkB] [] [] 10).1 =
      [{ id := 10, user_id := 7, title := "B", due_date := none,
         priority := "medium", status := "pending", reminder_at := none,
         reminder_sent := false }] ∧
    ∀ u ∈ (process_creations (fun _ => none) 0 7 [cFailA, cOkB] [] [] 10).1,
      u.title ≠ "A" := by decide

/-- C7 (amended): a creation item fails exactly when one of its truthy date
strings fails to parse; a failing item is skipped entirely — no task is
persisted for it — and the remaining items in the batch are still
processed; a succeeding item appends its task (scheduling a reminder when
`reminder_at` is set) and processing continues. -/
theorem creation_batch_spec (pd : String → Option Int) (now : Int) (uid nid : Nat)
    (c : Creation) (items : List Creation) (db : List Task) (jobs : List Nat) :
    (try_create pd uid nid c = none →
       process_creations pd now uid (c :: items) db jobs nid =
         process_creations pd now uid items db jobs nid)
  ∧ (∀ t, try_create pd uid nid c = some t →
       process_creations pd now uid (c :: items) db jobs nid =
         process_creations pd now uid items (db ++ [t])
           (if t.reminder_at.isSome then schedule_reminder now t jobs else jobs)
           (nid + 1))
  ∧ (try_create pd uid nid c = none ↔
       (∃ s, truthy c.due_date = some s ∧ pd s = none) ∨
       (∃ s, truthy c.reminder_at = some s ∧ pd s = none)) := by
  refine ⟨?_, ?_, ?_⟩
  · intro hn
    unfold process_creations
    simp only [List.foldl_cons, hn]
  · intro t hs
    unfold process_creations
    simp only [List.foldl_cons, hs]
  · unfold try_create parseField
    cases hd : truthy c.due_date with
    | none =>
        cases hr : truthy c.reminder_at with
        | none => simp
        | some s =>
            cases hps : pd s with
            | none => simp [hps]
            | some d => simp [hps]
    | some s =>
        cases hps : pd s with
        | none => simp [hps]
        | some d =>
            cases hr : truthy c.reminder_at with
            | none => simp [hps]
            | some s2 =>
                cases hps2 : pd s2 with
                | none => simp [hps, hps2]
                | some d2 => simp [hps, hps2]

/-- C7 witness: a batch consisting of one item with an unparseable due date
creates nothing. -/
theorem creation_batch_witness :
    process_creations (fun _ => none) 0 7 [cFailA] [] [] 10 = ([], [], 10) :=
  (creation_batch_spec (fun _ => none) 0 7 10 cFailA [] [] []).1 rfl

/-! ## C9 — category dispatch order -/

/-- A completion batch that reports no title leaves the store unchanged
(titles are reported exactly for the rows that were found and mutated). -/
theorem completions_noop (uid : Nat) (ids : List Nat) (db : List Task)
    (h : (process_completions uid ids db).2 = []) :
    (process_completions uid ids db).1 = db := by
  induction ids generalizing db with
  | nil => rfl
  | cons tid rest ih =>
      unfold process_completions at h ⊢
      simp only [List.foldl_cons] at h ⊢
      cases hf : db.find? (taskMatch uid tid) with
      | none =>
          rw [complete_step_none uid tid (db, []) hf] at h ⊢
          exact ih db h
      | some t =>
          rw [complete_step_some uid tid (db, []) t hf] at h
          rw [completions_acc] at h
          simp at h

/-- An action mixing a completion batch (of a missing id) with a creation. -/
def aMixed : ParsedAction :=
  { completions := [99], creations := [cOkB], updates := [] }

/-- C9 counterexample: the action's first non-empty category is
`completions`, but since its only id is missing, processing falls through
and the `creations` category is applied — the first non-empty category
present is NOT the only one applied. -/
theorem dispatch_cex :
    aMixed.completions ≠ [] ∧
    process_text (fun _ => none) 0 7 aMixed [] [] 5 =
      ([{ id := 5, user_id := 7, title := "B", due_date := none,
          priority := "medium", status := "pending", reminder_at := none,
          reminder_sent := false }], [], Outcome.createdMsg) := by decide

/-- C9 (amended): categories are processed in the order completions →
creations → updates → list; a completion batch that matches at least one
task short-circuits; a completion batch in which NO id matches leaves the
store unchanged and falls through to the next category; creations and
updates short-circuit whenever present. Consequently the effects of one
message always come from exactly one category, applied to the original
store. -/
theorem dispatch_spec (pd : String → Option Int) (now : Int) (uid : Nat)
    (a : ParsedAction) (db : List Task) (jobs : List Nat) (nid : Nat) :
    (a.completions = [] ∧ a.creations = [] ∧ a.updates = [] ∧
       process_text pd now uid a db jobs nid = (db, jobs, Outcome.fallback))
  ∨ ((process_completions uid a.completions db).2 ≠ [] ∧
       process_text pd now uid a db jobs nid =
         ((process_completions uid a.completions db).1, jobs,
          Outcome.completedMsg (process_completions uid a.completions db).2))
  ∨ ((process_completions uid a.completions db).2 = [] ∧ a.creations ≠ [] ∧
       process_text pd now uid a db jobs nid =
         ((process_creations pd now uid a.creations db jobs nid).1,
          (process_creations pd now uid a.creations db jobs nid).2.1,
          Outcome.createdMsg))
  ∨ ((process_completions uid a.completions db).2 = [] ∧ a.creations = [] ∧
       a.updates ≠ [] ∧
       process_text pd now uid a db jobs nid =
         (process_updates pd uid a.updates db, jobs, Outcome.updatedMsg))
  ∨ ((process_completions uid a.completions db).2 = [] ∧ a.completions ≠ [] ∧
       a.creations = [] ∧ a.updates = [] ∧
       process_text pd now uid a db jobs nid = (db, jobs, Outcome.silent)) := by
  by_cases hti : (process_completions uid a.completions db).2 = []
  · have hdb : (process_completions uid a.completions db).1 = db :=
      completions_noop uid a.completions db hti
    by_cases hcr : a.creations = []
    · by_cases hup : a.updates = []
      · by_cases hco : a.completions = []
        · refine Or.inl ⟨hco, hcr, hup, ?_⟩
          unfold process_text
          simp [hco, hcr, hup, hti, hdb]
          rfl
        · refine Or.inr (Or.inr (Or.inr (Or.inr ⟨hti, hco, hcr, hup, ?_⟩)))
          unfold process_text
          simp [hco, hcr, hup, hti, hdb]
      · refine Or.inr (Or.inr (Or.inr (Or.inl ⟨hti, hcr, hup, ?_⟩)))
        unfold process_text
        simp [hcr, hup, hti, hdb]
    · refine Or.inr (Or.inr (Or.inl ⟨hti, hcr, ?_⟩))
      unfold process_text
      simp [hcr, hti, hdb]
  · have hco : a.completions ≠ [] := by
      intro hc
      apply hti
      rw [hc]
      rfl
    refine Or.inr (Or.inl ⟨hti, ?_⟩)
    unfold process_text
    simp [hco, hti]

/-! ## C8 — status monotonicity -/

/-- The store-mutating operations reachable from the bot's entry points. -/
inductive Op
  | completeOp (ids : List Nat)
  | createOp (now : Int) (nid : Nat) (items : List Creation)
  | updateOp (reqs : List UpdateReq)
  | sweepOp (now : Int)
  | fireOp (tid : Nat) (deliverOk : Bool)
deriving Repr, DecidableEq

/-- The store after one operation. -/
def apply_op (pd : String → Option Int) (uid : Nat) (db : List Task) : Op → List Task
  | Op.completeOp ids => (process_completions uid ids db).1
  | Op.createOp now nid items => (process_creations pd now uid items db [] nid).1
  | Op.updateOp reqs => process_updates pd uid reqs db
  | Op.sweepOp now => cleanup_expired_wellness_tasks now db
  | Op.fireOp tid deliverOk => (send_reminder deliverOk uid tid db).1

/-- The store after a sequence of operations. -/
def apply_ops (pd : String → Option Int) (uid : Nat) (ops : List Op)
    (db : List Task) : List Task :=
  ops.foldl (apply_op pd uid) db

/-- An update request that carries no `status` field; every other operation
is unconditionally safe. -/
def statusSafe : Op → Bool
  | Op.updateOp reqs => reqs.all (fun r => r.fields.all (fun fv => fv.1 != "status"))
  | _ => true

/-- Pointwise completed-status preservation between an old and a new store:
existing rows keep their position (operations either map rows in place or
append fresh rows). -/
def statusMono (old new : List Task) : Prop :=
  old.length ≤ new.length ∧
  ∀ i : Nat, ∀ h : i < old.length, ∀ h2 : i < new.length,
    (old.get ⟨i, h⟩).status = "completed" → (new.get ⟨i, h2⟩).status = "completed"

theorem statusMono_rfl (l : List Task) : statusMono l l :=
  ⟨le_rfl, fun _ _ _ hc => hc⟩

theorem statusMono_trans (a b c : List Task) (m1 : statusMono a b)
    (m2 : statusMono b c) : statusMono a c :=
  ⟨le_trans m1.1 m2.1,
   fun i h h2 hc => m2.2 i (lt_of_lt_of_le h m1.1) h2 (m1.2 i h _ hc)⟩

theorem statusMono_map (f : Task → Task)
    (hf : ∀ t : Task, t.status = "completed" → (f t).status = "completed")
    (l : List Task) : statusMono l (l.map f) := by
  constructor
  · simp
  · intro i h h2 hc
    have : (l.map f).get ⟨i, h2⟩ = f (l.get ⟨i, h⟩) := by
      simp [List.get_eq_getElem, List.getElem_map]
    rw [this]
    exact hf _ hc

theorem statusMono_updateFirst (p : Task → Bool) (f : Task → Task)
    (hf : ∀ t : Task, t.status = "completed" → (f t).status = "completed")
    (l : List Task) : statusMono l (updateFirst p f l) := by
  induction l with
  | nil => exact statusMono_rfl []
  | cons a as ih =>
      unfold updateFirst
      by_cases hp : p a = true
      · simp only [hp, if_true]
        constructor
        · exact le_rfl
        · intro i h h2 hc
          cases i with
          | zero => exact hf a hc
          | succ n => exact hc
      · simp only [hp, if_false]
        constructor
        · simp [updateFirst_length]
        · intro i h h2 hc
          cases i with
          | zero => exact hc
          | succ n =>
              exact ih.2 n (by simpa using h)
                (by simpa [updateFirst_length] using h2) hc

theorem statusMono_append (l l2 : List Task) : statusMono l (l ++ l2) := by
  constructor
  · simp
  · intro i h h2 hc
    have : (l ++ l2).get ⟨i, h2⟩ = l.get ⟨i, h⟩ := by
      simp [List.get_eq_getElem, List.getElem_append, h]
    rw [this]
    exact hc

theorem statusMono_completions (uid : Nat) (ids : List Nat) (db : List Task) :
    statusMono db (process_completions uid ids db).1 := by
  induction ids generalizing db with
  | nil => exact statusMono_rfl db
  | cons tid rest ih =>
      unfold process_completions
      simp only [List.foldl_cons]
      cases hf : db.find? (taskMatch uid tid) with
      | none =>
          rw [complete_step_none uid tid (db, []) hf]
          exact ih db
      | some t =>
          rw [complete_step_some uid tid (db, []) t hf]
          rw [completions_acc]
          refine statusMono_trans _ _ _
            (statusMono_updateFirst (taskMatch uid tid)
              (fun u => { u with status := "completed" }) (fun u _ => rfl) db) ?_
          exact ih _

theorem statusMono_creations (pd : String → Option Int) (now : Int) (uid : Nat)
    (items : List Creation) (db : List Task) (jobs : List Nat) (nid : Nat) :
    statusMono db (process_creations pd now uid items db jobs nid).1 := by
  induction items generalizing db jobs nid with
  | nil => exact statusMono_rfl db
  | cons c rest ih =>
      unfold process_creations
      simp only [List.foldl_cons]
      cases hc : try_create pd uid nid c with
      | none =>
          simp only [hc]
          exact ih db jobs nid
      | some t =>
          simp only [hc]
          refine statusMono_trans _ _ _ (statusMono_append db [t]) ?_
          exact ih _ _ _

theorem apply_field_status (pd : String → Option Int) (t : Task) (f v : String)
    (hf : f ≠ "status") : (apply_field pd t f v).status = t.status := by
  unfold apply_field
  split
  · split
    · split
      · split <;> rfl
      · rfl
    · split
      · rfl
      · split
        · rfl
        · split
          · rename_i hs
            simp at hs
            exact absurd hs hf
          · rfl
  · rfl

theorem apply_fields_status (pd : String → Option Int) (fs : List (String × String))
    (t : Task) (hsafe : fs.all (fun fv => fv.1 != "status") = true) :
    (fs.foldl (fun t fv => apply_field pd t fv.1 fv.2) t).status = t.status := by
  induction fs generalizing t with
  | nil => rfl
  | cons fv rest ih =>
      simp only [List.all_cons, Bool.and_eq_true, bne_iff_ne] at hsafe
      simp only [List.foldl_cons]
      rw [ih _ hsafe.2]
      exact apply_field_status pd t fv.1 fv.2 hsafe.1

theorem statusMono_updates (pd : String → Option Int) (uid : Nat)
    (reqs : List UpdateReq) (db : List Task)
    (hsafe : reqs.all (fun r => r.fields.all (fun fv => fv.1 != "status")) = true) :
    statusMono db (process_updates pd uid reqs db) := by
  induction reqs generalizing db with
  | nil => exact statusMono_rfl db
  | cons r rest ih =>
      simp only [List.all_cons, Bool.and_eq_true] at hsafe
      unfold process_updates
      simp only [List.foldl_cons]
      refine statusMono_trans _ (apply_update pd uid r db) _ ?_ ?_
      · unfold apply_update
        cases hf : db.find? (taskMatch uid r.id) with
        | none => exact statusMono_rfl db
        | some t =>
            refine statusMono_updateFirst _ _ ?_ db
            intro u hu
            rw [apply_fields_status pd r.fields u hsafe.1]
            exact hu
      · exact ih _ hsafe.2

theorem statusMono_sweep (now : Int) (db : List Task) :
    statusMono db (cleanup_expired_wellness_tasks now db) := by
  refine statusMono_map _ ?_ db
  intro t hc
  unfold sweep_task
  have : (t.status == "pending") = false := by
    rw [hc]
    rfl
  simp [this, hc]

theorem statusMono_fire (deliverOk : Bool) (uid tid : Nat) (db : List Task) :
    statusMono db (send_reminder deliverOk uid tid db).1 := by
  unfold send_reminder
  cases hf : db.find? (taskMatch uid tid) with
  | none => exact statusMono_rfl db
  | some t =>
      by_cases hs : (t.status == "pending") = true
      · cases deliverOk with
        | false => simp only [hs, if_true, Bool.false_eq_true, if_false]
                   exact statusMono_rfl db
        | true =>
            simp only [hs, if_true]
            exact statusMono_updateFirst (taskMatch uid tid)
              (fun u => { u with reminder_sent := true }) (fun u hu => hu) db
      · have hs' : (t.status == "pending") = false := by
          simp at hs
          simp [hs]
        simp only [hs', Bool.false_eq_true, if_false]
        exact statusMono_rfl db

theorem statusMono_op (pd : String → Option Int) (uid : Nat) (db : List Task)
    (op : Op) (hsafe : statusSafe op = true) :
    statusMono db (apply_op pd uid db op) := by
  cases op with
  | completeOp ids => exact statusMono_completions uid ids db
  | createOp now nid items => exact statusMono_creations pd now uid items db [] nid
  | updateOp reqs => exact statusMono_updates pd uid reqs db hsafe
  | sweepOp now => exact statusMono_sweep now db
  | fireOp tid deliverOk => exact statusMono_fire deliverOk uid tid db

theorem statusMono_ops (pd : String → Option Int) (uid : Nat) (ops : List Op)
    (db : List Task) (hsafe : ∀ op ∈ ops, statusSafe op = true) :
    statusMono db (apply_ops pd uid ops db) := by
  induction ops generalizing db with
  | nil => exact statusMono_rfl db
  | cons op rest ih =>
      unfold apply_ops
      simp only [List.foldl_cons]
      refine statusMono_trans _ (apply_op pd uid db op) _ ?_ ?_
      · exact statusMono_op pd uid db op (hsafe op (List.mem_cons_self op rest))
      · exact ih _ (fun o ho => hsafe o (List.mem_cons_of_mem op ho))

/-- C8 counterexample: the update path `setattr`s any known field, including
`status`; an update request carrying `status = pending` reverts a completed
task back to pending, so status is not monotonic over reachable operations. -/
theorem status_monotone_cex :
    tDoneA.status = "completed" ∧
    apply_ops (fun _ => none) 7
        [Op.updateOp [{ id := 1, fields := [("status", "pending")] }]] [tDoneA] =
      [{ tDoneA with status := "pending" }] := by decide

/-- C8 (amended): over every sequence of completion, creation, sweep and
fire-path operations, and of update operations whose requests carry no
`status` field, a completed task never reverts: the update operation is the
single exception, since it applies any provided field value, including
`status`. -/
theorem status_monotone_spec (pd : String → Option Int) (uid : Nat)
    (ops : List Op) (db : List Task)
    (hsafe : ∀ op ∈ ops, statusSafe op = true)
    (i : Nat) (h : i < db.length) (h2 : i < (apply_ops pd uid ops db).length)
    (hc : (db.get ⟨i, h⟩).status = "completed") :
    ((apply_ops pd uid ops db).get ⟨i, h2⟩).status = "completed" :=
  (statusMono_ops pd uid ops db hsafe).2 i h h2 hc

/-- C8 witness: a concrete safe operation sequence (complete, sweep, fire,
priority update) keeps a completed task completed. -/
theorem status_monotone_witness :
    ((apply_ops (fun _ => none) 7
        [Op.completeOp [2], Op.sweepOp 100, Op.fireOp 1 true,
         Op.updateOp [{ id := 1, fields := [("priority", "low")] }]]
        [tDoneA, tPendB]).get ⟨0, by decide⟩).status = "completed" :=
  status_monotone_spec (fun _ => none) 7
    [Op.completeOp [2], Op.sweepOp 100, Op.fireOp 1 true,
     Op.updateOp [{ id := 1, fields := [("priority", "low")] }]]
    [tDoneA, tPendB] (by decide) 0 (by decide) (by decide) (by decide)

end Bot
